import Mathlib

/-!
Shallow embedding of the core ABC-costing pipeline of `src/v3.py`
(lines 45-138: cost-pool validation, driver-units extraction, rate
computation, cost allocation, summary by type, time-period bucketing).

Modelling conventions:
* pandas numeric cells are modelled as `Option ℚ`, with `none` standing
  for a missing value (NaN); exact rationals stand in for IEEE floats
  (the spec asks for equality "within floating-point tolerance", which
  is exact equality in this idealisation).
* a pandas row is an association list from column label to cell value;
  Python-dict insertion (overwrite in place, append when fresh) is
  `insertAssoc`.
* the event table carries the list of its numeric-dtype column labels
  (`select_dtypes(include="number")` is dtype metadata the embedding
  cannot recompute from values) and its full row list; the last row is
  the Totals record, exactly as `event_df.iloc[-1]` / `iloc[:-1]`.
* `pd.to_datetime(..., errors="coerce")` happens outside the classifier;
  each event row carries the parsed departure hour as `Option ℕ`
  (`none` = NaT, i.e. missing or unparseable timestamp).
* the Streamlit error-and-stop on missing cost-pool columns is an
  `Except.error "MissingColumnsError"`; the `IndexError` that
  `event_df.iloc[-1]` raises on an empty table is `Except.error
  "IndexError"`.
-/

namespace ABC

/-- A NaN-able numeric cell of a pandas table: `none` is NaN. -/
abbrev Val := Option ℚ

/-- Drop leading and trailing whitespace from a character list. -/
def trimData (l : List Char) : List Char :=
  (((l.dropWhile Char.isWhitespace).reverse).dropWhile Char.isWhitespace).reverse

/-- Python `str.strip()`: the string with leading and trailing whitespace
removed. -/
def strip (s : String) : String := ⟨trimData s.data⟩

/-- Python-dict insertion into an association list: overwrite the value in
place when the key is present, append otherwise. -/
def insertAssoc {α : Type} (m : List (String × α)) (k : String) (v : α) :
    List (String × α) :=
  if m.any (fun p => p.1 == k) then
    m.map (fun p => if p.1 == k then (k, v) else p)
  else
    m ++ [(k, v)]

/-- One event-table (flight) row: the first-column identifier already as a
string, the parsed departure hour (`none` when the timestamp is missing or
unparseable), and the numeric cells keyed by column label. -/
structure EventRow where
  name : String
  depHour : Option ℕ
  cells : List (String × Val)

/-- The event table: the labels of its numeric-dtype columns, in column
order, and all rows (the last row is the Totals record). -/
structure EventTable where
  numericCols : List String
  rows : List EventRow

/-- `row[c]` for a column `c` known to the table: the stored cell, NaN when
the row does not carry it. -/
def cellOf (r : EventRow) (c : String) : Val :=
  (r.cells.lookup c).join

/-- `flight_row.get(d, 0)` (v3.py line 89): the cell when column `d` exists
in the row, the default `0` otherwise. -/
def rowGet (r : EventRow) (d : String) : Val :=
  match r.cells.lookup d with
  | some v => v
  | none => some 0

/-- `flight_row.get(act["Driver"], 0)` when the Driver cell itself may be
NaN: a NaN label matches no column, so the default `0` results. -/
def rowGetD (r : EventRow) : Option String → Val
  | some d => rowGet r d
  | none => some 0

/-- The `driver_units` dict (v3.py lines 56-60): fold over the numeric
columns, keeping the Totals-row value under the trimmed column label and
skipping NaN values; a later column whose trimmed label collides
overwrites, as in the Python dict comprehension. -/
def buildDriverUnits (numericCols : List String) (total : EventRow) :
    List (String × ℚ) :=
  numericCols.foldl
    (fun m c =>
      match cellOf total c with
      | some v => insertAssoc m (strip c) v
      | none => m)
    []

/-- `get_driver_units` (v3.py lines 62-65): 0 for a NaN driver, else the
dict value under the trimmed driver name, defaulting to 0. -/
def get_driver_units (du : List (String × ℚ)) : Option String → ℚ
  | none => 0
  | some d => (du.lookup (strip d)).getD 0

/-- One cost-pool row (columns Activity, Type, Total_Cost, Driver; the
Driver cell may be missing). -/
structure CostRow where
  activity : String
  type : String
  total_cost : ℚ
  driver : Option String

/-- A cost-pool row extended with the two computed columns Driver_Units
and RatePerDriverUnit. -/
structure RatedRow extends CostRow where
  driver_units : ℚ
  ratePerDriverUnit : ℚ

/-- v3.py lines 67-71: `Driver_Units` via `get_driver_units`, then
`RatePerDriverUnit = Total_Cost / Driver_Units if Driver_Units != 0
else 0`. -/
def rateCostPool (du : List (String × ℚ)) (pool : List CostRow) :
    List RatedRow :=
  pool.map fun r =>
    let u := get_driver_units du r.driver
    { r with
      driver_units := u
      ratePerDriverUnit := if u ≠ 0 then r.total_cost / u else 0 }

/-- NaN-propagating multiplication of a cell by a scalar. -/
def nMul : Val → ℚ → Val
  | some a, b => some (a * b)
  | none, _ => none

/-- pandas `sum` with the default `skipna=True`: NaN cells are skipped,
and an all-NaN (or empty) list sums to 0. -/
def nanSum (xs : List Val) : ℚ :=
  (xs.filterMap id).sum

/-- The allocation cell for flight row `F` and rated activity `A`
(v3.py lines 88-90): `flight_row.get(act["Driver"], 0) *
act["RatePerDriverUnit"]`. -/
def allocCell (F : EventRow) (A : RatedRow) : Val :=
  nMul (rowGetD F A.driver) A.ratePerDriverUnit

/-- One row of the allocation matrix `costs_df`: the Flight key and one
cell per activity (the activity columns of the Python row dict). -/
structure AllocRow where
  flight : String
  cells : List (String × Val)

/-- v3.py lines 83-92: build one `row_cost` dict for a flight, inserting
one cell per cost-pool row keyed by its Activity name. -/
def allocRow (rated : List RatedRow) (F : EventRow) : AllocRow :=
  { flight := F.name
    cells := rated.foldl (fun m A => insertAssoc m A.activity (allocCell F A)) [] }

/-- v3.py lines 95-97: `Total_Cost_Per_Flight` is the row sum of every
non-Flight column of `costs_df` (pandas `sum(axis=1)`, skipping NaN). -/
def total_Cost_Per_Flight (r : AllocRow) : ℚ :=
  nanSum (r.cells.map Prod.snd)

/-- pandas `Series.unique`: the distinct values in first-occurrence
order. -/
def uniqueKeys : List String → List String
  | [] => []
  | x :: xs => x :: (uniqueKeys xs).filter (fun y => y != x)

/-- `costs_df[a]` for one allocation row: the cell stored under column
label `a`. -/
def colLookup (r : AllocRow) (a : String) : Val :=
  (r.cells.lookup a).join

/-- v3.py lines 106-107 for one flight and one Type value `t`: select the
Activity columns of the cost-pool rows whose Type equals `t` and take the
row sum (skipping NaN). -/
def summaryTypeCell (rated : List RatedRow) (r : AllocRow) (t : String) : ℚ :=
  nanSum (((rated.filter (fun A => A.type == t)).map
    (fun A => colLookup r A.activity)))

/-- One row of the `summary` table: Flight, one `{t}_Cost` cell per
distinct Type, and Total_Cost_Per_Flight copied from `costs_df`. -/
structure SummaryRow where
  flight : String
  typeCells : List (String × ℚ)
  total_Cost_Per_Flight : ℚ

/-- v3.py lines 102-109: the summary row for one allocation row. -/
def summaryRow (rated : List RatedRow) (r : AllocRow) : SummaryRow :=
  { flight := r.flight
    typeCells := (uniqueKeys (rated.map (fun A => A.type))).map
      (fun t => (t ++ "_Cost", summaryTypeCell rated r t))
    total_Cost_Per_Flight := total_Cost_Per_Flight r }

/-- `get_time_period` (v3.py lines 125-136) on the parsed hour; `none`
is NaT (missing or unparseable timestamp). -/
def get_time_period : Option ℕ → String
  | none => "Unknown"
  | some hour =>
    if 5 ≤ hour ∧ hour < 12 then "Morning"
    else if 12 ≤ hour ∧ hour < 17 then "Afternoon"
    else if 17 ≤ hour ∧ hour < 21 then "Evening"
    else "Night"

/-- `required_cols` (v3.py line 45). -/
def required_cols : List String := ["Activity", "Type", "Total_Cost", "Driver"]

/-- The four derived tables the engine produces. -/
structure Output where
  ratedPool : List RatedRow
  allocMatrix : List AllocRow
  summaryRows : List SummaryRow
  timePeriods : List String

/-- The whole core pipeline (v3.py lines 45-138) as one function of the
cost-pool table (its column labels plus its rows) and the event table.
Validation failure is `error "MissingColumnsError"`; an empty event table
makes `event_df.iloc[-1]` raise, modelled as `error "IndexError"`. -/
def runPipeline (costCols : List String) (pool : List CostRow)
    (ev : EventTable) : Except String Output :=
  if ¬ required_cols.all (fun c => costCols.contains c) then
    .error "MissingColumnsError"
  else
    match ev.rows.getLast? with
    | none => .error "IndexError"
    | some total =>
      let du := buildDriverUnits ev.numericCols total
      let rated := rateCostPool du pool
      let clean := ev.rows.dropLast
      let matrix := clean.map (allocRow rated)
      .ok { ratedPool := rated
            allocMatrix := matrix
            summaryRows := matrix.map (summaryRow rated)
            timePeriods := clean.map (fun F => get_time_period F.depHour) }

/-! ### Concrete sample data (used by the closed witness theorems) -/

/-- A cost-pool row: Fuel, Direct, 1000, driven by Distance. -/
def fuelRow : CostRow :=
  { activity := "Fuel", type := "Direct", total_cost := 1000,
    driver := some "Distance" }

/-- A cost-pool row: Handling, Indirect, 300, driven by Bags. -/
def handlingRow : CostRow :=
  { activity := "Handling", type := "Indirect", total_cost := 300,
    driver := some "Bags" }

/-- A driver-units dict with Distance = 500 and Bags = 100. -/
def sampleDU : List (String × ℚ) := [("Distance", 500), ("Bags", 100)]

/-- The Fuel row as rated against `sampleDU`. -/
def fuelRated : RatedRow :=
  { toCostRow := fuelRow, driver_units := 500, ratePerDriverUnit := 2 }

/-- The Handling row as rated against `sampleDU`. -/
def handlingRated : RatedRow :=
  { toCostRow := handlingRow, driver_units := 100, ratePerDriverUnit := 3 }

/-- A rated activity whose driver names a column absent from the sample
flight. -/
def deicingRated : RatedRow :=
  { activity := "Deicing", type := "Indirect", total_cost := 200,
    driver := some "Weight", driver_units := 0, ratePerDriverUnit := 0 }

/-- A cost-pool row whose Driver carries a leading space: " Distance". -/
def spacedRow : CostRow :=
  { activity := "Fuel", type := "Direct", total_cost := 1000,
    driver := some " Distance" }

/-- The spaced row as rated against `sampleDU`. -/
def spacedRated : RatedRow :=
  { toCostRow := spacedRow, driver_units := 500, ratePerDriverUnit := 2 }

/-- A flight row with Distance 100 and Bags 20, departing at hour 9. -/
def sampleFlight : EventRow :=
  { name := "AA101", depHour := some 9,
    cells := [("Distance", some 100), ("Bags", some 20)] }

/-- A flight row whose Bags cell is present but NaN. -/
def nanFlight : EventRow :=
  { name := "AA102", depHour := none,
    cells := [("Distance", some 100), ("Bags", none)] }

/-- A two-activity rated pool with distinct Activity names and Types. -/
def sampleRated : List RatedRow := [fuelRated, handlingRated]

/-- A Totals record with Distance 500 and Bags 100. -/
def totalsRow : EventRow :=
  { name := "TOTAL", depHour := none,
    cells := [("Distance", some 500), ("Bags", some 100)] }

/-! ### Helper lemmas -/

/-- `nanSum` is the plain sum after reading every NaN cell as 0. -/
lemma nanSum_eq_sum_getD (xs : List Val) :
    nanSum xs = (xs.map (fun o => o.getD 0)).sum := by
  induction xs with
  | nil => rfl
  | cons x xs ih =>
    cases x with
    | none => simpa [nanSum, List.filterMap_cons] using ih
    | some a =>
      have hstep : nanSum (some a :: xs) = a + nanSum xs := by
        simp [nanSum, List.filterMap_cons]
      rw [hstep, ih]
      simp

/-- Inserting a key absent from the association list appends it. -/
lemma insertAssoc_fresh {α : Type} (m : List (String × α)) (k : String) (v : α)
    (h : ∀ p ∈ m, p.1 ≠ k) : insertAssoc m k v = m ++ [(k, v)] := by
  unfold insertAssoc
  have hfalse : m.any (fun p => p.1 == k) = false := by
    rw [List.any_eq_false]
    intro p hp
    simpa using h p hp
  simp [hfalse]

/-- The `row_cost` fold: with pairwise-distinct Activity names that are
fresh for the accumulator, the dict is the accumulator followed by one
cell per cost-pool row, in order. -/
lemma allocRow_cells_aux (F : EventRow) (l : List RatedRow) :
    ∀ m : List (String × Val),
      (l.map (fun A => A.activity)).Nodup →
      (∀ A ∈ l, ∀ p ∈ m, p.1 ≠ A.activity) →
      l.foldl (fun m A => insertAssoc m A.activity (allocCell F A)) m
        = m ++ l.map (fun A => (A.activity, allocCell F A)) := by
  induction l with
  | nil => intro m _ _; simp
  | cons A l ih =>
    intro m hnd hdisj
    simp only [List.map_cons, List.nodup_cons] at hnd
    simp only [List.foldl_cons]
    rw [insertAssoc_fresh _ _ _ (fun p hp => hdisj A (List.mem_cons_self _ _) p hp)]
    rw [ih (m ++ [(A.activity, allocCell F A)]) hnd.2 ?_]
    · simp
    · intro B hB p hp
      rcases List.mem_append.mp hp with h1 | h2
      · exact hdisj B (List.mem_cons_of_mem _ hB) p h1
      · have hpe : p = (A.activity, allocCell F A) := by simpa using h2
        subst hpe
        intro hEq
        apply hnd.1
        rw [show A.activity = B.activity from hEq]
        exact List.mem_map_of_mem (fun A => A.activity) hB

/-- With distinct Activity names, the allocation-row cells are exactly one
cell per cost-pool row, keyed by Activity, in cost-pool order. -/
lemma allocRow_cells (rated : List RatedRow) (F : EventRow)
    (hnd : (rated.map (fun A => A.activity)).Nodup) :
    (allocRow rated F).cells
      = rated.map (fun A => (A.activity, allocCell F A)) := by
  unfold allocRow
  simpa using allocRow_cells_aux F rated [] hnd (by simp)

/-- Looking a key up in a keyed `map` list finds the entry of the unique
element carrying that key. -/
lemma lookup_map_of_nodup {α β : Type} (key : α → String) (f : α → β)
    (l : List α) (hnd : (l.map key).Nodup) (a : α) (ha : a ∈ l) :
    (l.map (fun x => (key x, f x))).lookup (key a) = some (f a) := by
  induction l with
  | nil => cases ha
  | cons x l ih =>
    simp only [List.map_cons, List.nodup_cons] at hnd
    rcases List.mem_cons.mp ha with rfl | ha2
    · simp [List.lookup]
    · have hne : (key a == key x) = false := by
        refine beq_eq_false_iff_ne.mpr fun h => ?_
        exact hnd.1 (h ▸ List.mem_map_of_mem key ha2)
      simp only [List.map_cons, List.lookup, hne]
      exact ih hnd.2 ha2

/-- Splitting a mapped sum along a Boolean predicate. -/
lemma sum_filter_split {α : Type} (p : α → Bool) (f : α → ℚ) :
    ∀ l : List α,
      ((l.filter p).map f).sum + ((l.filter (fun x => !(p x))).map f).sum
        = (l.map f).sum := by
  intro l
  induction l with
  | nil => simp
  | cons x l ih =>
    cases hx : p x with
    | true =>
      have h1 : List.filter p (x :: l) = x :: List.filter p l := by
        simp [List.filter_cons, hx]
      have h2 : List.filter (fun y => !(p y)) (x :: l)
          = List.filter (fun y => !(p y)) l := by
        simp [List.filter_cons, hx]
      rw [h1, h2, List.map_cons, List.sum_cons, List.map_cons, List.sum_cons,
        add_assoc, ih]
    | false =>
      have h1 : List.filter p (x :: l) = List.filter p l := by
        simp [List.filter_cons, hx]
      have h2 : List.filter (fun y => !(p y)) (x :: l)
          = x :: List.filter (fun y => !(p y)) l := by
        simp [List.filter_cons, hx]
      rw [h1, h2, List.map_cons, List.sum_cons, List.map_cons, List.sum_cons,
        add_left_comm, ih]

/-- Summing group sums over a duplicate-free list of keys that covers every
element recovers the whole sum. -/
lemma sum_partition_aux {α : Type} (key : α → String) (f : α → ℚ) :
    ∀ (ks : List String) (l : List α), ks.Nodup →
      (∀ x ∈ l, key x ∈ ks) →
      (ks.map (fun t => ((l.filter (fun x => key x == t)).map f).sum)).sum
        = (l.map f).sum := by
  intro ks
  induction ks with
  | nil =>
    intro l _ hall
    cases l with
    | nil => simp
    | cons x l => exact absurd (hall x (List.mem_cons_self _ _)) (by simp)
  | cons t ks ih =>
    intro l hnd hall
    simp only [List.nodup_cons] at hnd
    simp only [List.map_cons, List.sum_cons]
    have hrest :
        (ks.map (fun t2 => ((l.filter (fun x => key x == t2)).map f).sum)).sum
          = (ks.map (fun t2 =>
              (((l.filter (fun x => !(key x == t))).filter
                  (fun x => key x == t2)).map f).sum)).sum := by
      apply congrArg List.sum
      apply List.map_congr_left
      intro t2 ht2
      have hcomm : (l.filter (fun x => !(key x == t))).filter
            (fun x => key x == t2)
          = l.filter (fun x => key x == t2) := by
        rw [List.filter_filter]
        apply List.filter_congr
        intro x _
        cases hx : (key x == t2) with
        | false => simp
        | true =>
          have hxt2 : key x = t2 := beq_iff_eq.mp hx
          have hne : (key x == t) = false := by
            refine beq_eq_false_iff_ne.mpr fun hxe => ?_
            exact hnd.1 (hxe ▸ hxt2 ▸ ht2)
          simp [hne]
      rw [hcomm]
    rw [hrest]
    rw [ih (l.filter (fun x => !(key x == t))) hnd.2 ?_]
    · exact sum_filter_split (fun x => key x == t) f l
    · intro x hx
      have hmem := List.mem_filter.mp hx
      have hne : key x ≠ t := by simpa using hmem.2
      rcases List.mem_cons.mp (hall x hmem.1) with h | h
      · exact absurd h hne
      · exact h

/-- `uniqueKeys` never repeats a value. -/
lemma uniqueKeys_nodup : ∀ xs : List String, (uniqueKeys xs).Nodup := by
  intro xs
  induction xs with
  | nil => simp [uniqueKeys]
  | cons x xs ih =>
    simp only [uniqueKeys, List.nodup_cons]
    constructor
    · intro hmem
      have hf := (List.mem_filter.mp hmem).2
      simp at hf
    · exact ih.filter _

/-- Every value of the input occurs in `uniqueKeys`. -/
lemma mem_uniqueKeys (xs : List String) (a : String) (ha : a ∈ xs) :
    a ∈ uniqueKeys xs := by
  induction xs with
  | nil => cases ha
  | cons x xs ih =>
    rcases List.mem_cons.mp ha with rfl | ha2
    · simp [uniqueKeys]
    · by_cases hax : a = x
      · subst hax; simp [uniqueKeys]
      · simp only [uniqueKeys, List.mem_cons]
        right
        exact List.mem_filter.mpr ⟨ih ha2, by simpa using hax⟩

/-- With distinct Activity names, selecting activity column `A.activity`
from an allocation row recovers the allocation cell of `A`. -/
lemma colLookup_allocRow (rated : List RatedRow) (F : EventRow)
    (hnd : (rated.map (fun A => A.activity)).Nodup)
    (A : RatedRow) (hA : A ∈ rated) :
    colLookup (allocRow rated F) A.activity = allocCell F A := by
  unfold colLookup
  rw [allocRow_cells rated F hnd]
  have hl := lookup_map_of_nodup (fun A => A.activity)
    (fun A => allocCell F A) rated hnd A hA
  rw [hl]
  rfl

/-- With distinct Activity names, the row total is the NaN-skipping sum of
the allocation cells over the cost-pool rows. -/
lemma total_allocRow (rated : List RatedRow) (F : EventRow)
    (hnd : (rated.map (fun A => A.activity)).Nodup) :
    total_Cost_Per_Flight (allocRow rated F)
      = nanSum (rated.map (fun A => allocCell F A)) := by
  unfold total_Cost_Per_Flight
  rw [allocRow_cells rated F hnd, List.map_map]
  rfl

/-- With distinct Activity names, a Type cell of the summary is the
NaN-skipping sum of the allocation cells of that Type's activities. -/
lemma summaryTypeCell_allocRow (rated : List RatedRow) (F : EventRow)
    (hnd : (rated.map (fun A => A.activity)).Nodup) (t : String) :
    summaryTypeCell rated (allocRow rated F) t
      = nanSum ((rated.filter (fun A => A.type == t)).map
          (fun A => allocCell F A)) := by
  unfold summaryTypeCell
  congr 1
  apply List.map_congr_left
  intro A hA
  exact colLookup_allocRow rated F hnd A (List.mem_of_mem_filter hA)

/-- The `driver_units` fold: with pairwise-distinct stripped column names
fresh for the accumulator, the dict keeps, in column order, one entry per
numeric column whose Totals-row value is present. -/
lemma buildDriverUnits_aux (total : EventRow) (cols : List String) :
    ∀ m : List (String × ℚ),
      (cols.map strip).Nodup →
      (∀ c ∈ cols, ∀ p ∈ m, p.1 ≠ strip c) →
      cols.foldl (fun m c =>
          match cellOf total c with
          | some v => insertAssoc m (strip c) v
          | none => m) m
        = m ++ cols.filterMap
            (fun c => (cellOf total c).map (fun v => (strip c, v))) := by
  induction cols with
  | nil => intro m _ _; simp
  | cons c cols ih =>
    intro m hnd hdisj
    simp only [List.map_cons, List.nodup_cons] at hnd
    simp only [List.foldl_cons, List.filterMap_cons]
    cases hc : cellOf total c with
    | none =>
      simp only [hc, Option.map_none]
      exact ih m hnd.2 (fun c2 h2 p hp => hdisj c2 (List.mem_cons_of_mem _ h2) p hp)
    | some v =>
      simp only [hc, Option.map_some]
      rw [insertAssoc_fresh _ _ _ (fun p hp => hdisj c (List.mem_cons_self _ _) p hp)]
      rw [ih (m ++ [(strip c, v)]) hnd.2 ?_]
      · simp
      · intro c2 h2 p hp
        rcases List.mem_append.mp hp with h1 | hpe
        · exact hdisj c2 (List.mem_cons_of_mem _ h2) p h1
        · have hpe2 : p = (strip c, v) := by simpa using hpe
          subst hpe2
          intro hEq
          apply hnd.1
          rw [show strip c = strip c2 from hEq]
          exact List.mem_map_of_mem strip h2

/-- With pairwise-distinct stripped numeric-column names, the driver-units
dict is exactly one entry per numeric column with a present Totals-row
value, keyed by the stripped column name, in column order. -/
lemma buildDriverUnits_eq (numericCols : List String) (total : EventRow)
    (hnd : (numericCols.map strip).Nodup) :
    buildDriverUnits numericCols total
      = numericCols.filterMap
          (fun c => (cellOf total c).map (fun v => (strip c, v))) := by
  unfold buildDriverUnits
  simpa using buildDriverUnits_aux total numericCols [] hnd (by simp)

/-! ### Claims -/

/-- C1: for every cost-pool row, the computed RatePerDriverUnit equals
Total_Cost divided by Driver_Units when Driver_Units is nonzero, and
equals 0 when Driver_Units is 0; `rateCostPool` is a total function, so
no division error arises in either case. -/
theorem c1_rate_per_driver_unit (du : List (String × ℚ)) (pool : List CostRow)
    (A : RatedRow) (hA : A ∈ rateCostPool du pool) :
    (A.driver_units ≠ 0 → A.ratePerDriverUnit = A.total_cost / A.driver_units)
    ∧ (A.driver_units = 0 → A.ratePerDriverUnit = 0) := by
  simp only [rateCostPool, List.mem_map] at hA
  obtain ⟨r, _, rfl⟩ := hA
  dsimp only
  constructor
  · intro h
    rw [if_pos h]
  · intro h
    rw [if_neg (not_not_intro h)]

/-- Witness for C1 at a concrete one-activity pool: the rated row is
produced by the pipeline and its rate is Total_Cost / Driver_Units. -/
theorem c1_rate_per_driver_unit_witness :
    fuelRated ∈ rateCostPool sampleDU [fuelRow]
    ∧ fuelRated.ratePerDriverUnit
        = fuelRated.total_cost / fuelRated.driver_units := by
  have hs : strip "Distance" = "Distance" := by decide
  have hu : get_driver_units sampleDU (some "Distance") = 500 := by
    simp [get_driver_units, hs, sampleDU, List.lookup]
  have hmem : fuelRated ∈ rateCostPool sampleDU [fuelRow] := by
    norm_num [rateCostPool, fuelRow, hu, fuelRated, RatedRow.mk.injEq]
  exact ⟨hmem, (c1_rate_per_driver_unit _ _ _ hmem).1 (by norm_num [fuelRated])⟩

/-- C2: the allocation cell is the flight's value in the column named by
the activity's Driver multiplied by RatePerDriverUnit when that column
exists (NaN-propagating), and 0 when the column does not exist or the
Driver itself is missing; `allocCell` is total, so no error is raised. -/
theorem c2_alloc_cell (F : EventRow) (A : RatedRow) :
    (∀ d v, A.driver = some d → F.cells.lookup d = some v →
      allocCell F A = nMul v A.ratePerDriverUnit)
    ∧ (∀ d, A.driver = some d → F.cells.lookup d = none →
      allocCell F A = some 0)
    ∧ (A.driver = none → allocCell F A = some 0) := by
  refine ⟨?_, ?_, ?_⟩
  · intro d v hd hv
    simp [allocCell, rowGetD, hd, rowGet, hv]
  · intro d hd hv
    simp [allocCell, rowGetD, hd, rowGet, hv, nMul]
  · intro hd
    simp [allocCell, rowGetD, hd, nMul]

/-- Witness for C2 at a concrete flight and activity: the flight lacks the
"Weight" column, so the cell is 0 without an error. -/
theorem c2_alloc_cell_witness :
    sampleFlight.cells.lookup "Weight" = none
    ∧ allocCell sampleFlight deicingRated = some 0 := by
  refine ⟨by decide, ?_⟩
  exact (c2_alloc_cell sampleFlight deicingRated).2.1 "Weight" rfl (by decide)

/-- C3: with the spec's invariant that Activity names are unique, each
flight's Total_Cost_Per_Flight is the sum of its allocation cells over
all activities (a NaN cell contributing 0, as pandas `sum` skips NaN),
and the Summary table carries exactly that total through. -/
theorem c3_total_cost_per_flight (rated : List RatedRow) (F : EventRow)
    (hnd : (rated.map (fun A => A.activity)).Nodup) :
    total_Cost_Per_Flight (allocRow rated F)
      = (rated.map (fun A => (allocCell F A).getD 0)).sum
    ∧ (summaryRow rated (allocRow rated F)).total_Cost_Per_Flight
      = total_Cost_Per_Flight (allocRow rated F) := by
  constructor
  · rw [total_allocRow rated F hnd, nanSum_eq_sum_getD, List.map_map]
    rfl
  · rfl

/-- Witness for C3 at a concrete two-activity pool and one flight. -/
theorem c3_total_cost_per_flight_witness :
    (sampleRated.map (fun A => A.activity)).Nodup
    ∧ total_Cost_Per_Flight (allocRow sampleRated sampleFlight)
      = (sampleRated.map
          (fun A => (allocCell sampleFlight A).getD 0)).sum := by
  refine ⟨by decide, ?_⟩
  exact (c3_total_cost_per_flight _ _ (by decide)).1

/-- C4: with the spec's invariant that Activity names are unique (each
activity carrying exactly one Type by construction of the cost-pool row),
the per-flight sum of the Summary's Type columns equals
Total_Cost_Per_Flight, and each Type cell is the per-flight sum of the
AllocationMatrix cells of exactly the activities carrying that Type. -/
theorem c4_summary_type_columns (rated : List RatedRow) (F : EventRow)
    (hnd : (rated.map (fun A => A.activity)).Nodup) :
    (((summaryRow rated (allocRow rated F)).typeCells).map Prod.snd).sum
      = (summaryRow rated (allocRow rated F)).total_Cost_Per_Flight
    ∧ ∀ t, summaryTypeCell rated (allocRow rated F) t
      = nanSum ((rated.filter (fun A => A.type == t)).map
          (fun A => allocCell F A)) := by
  have htc : ∀ t, summaryTypeCell rated (allocRow rated F) t
      = ((rated.filter (fun A => A.type == t)).map
          (fun A => (allocCell F A).getD 0)).sum := by
    intro t
    rw [summaryTypeCell_allocRow rated F hnd t, nanSum_eq_sum_getD, List.map_map]
    rfl
  refine ⟨?_, fun t => summaryTypeCell_allocRow rated F hnd t⟩
  show ((List.map
      (fun t => (t ++ "_Cost", summaryTypeCell rated (allocRow rated F) t))
      (uniqueKeys (rated.map (fun A => A.type)))).map Prod.snd).sum
    = total_Cost_Per_Flight (allocRow rated F)
  rw [List.map_map]
  have hcomp : (Prod.snd ∘ fun t =>
      (t ++ "_Cost", summaryTypeCell rated (allocRow rated F) t))
      = fun t => summaryTypeCell rated (allocRow rated F) t := rfl
  rw [hcomp]
  rw [List.map_congr_left (fun t _ => htc t)]
  rw [sum_partition_aux (fun A => A.type) (fun A => (allocCell F A).getD 0)
    (uniqueKeys (rated.map (fun A => A.type))) rated (uniqueKeys_nodup _)
    (fun A hA => mem_uniqueKeys _ _ (List.mem_map_of_mem _ hA))]
  rw [total_allocRow rated F hnd, nanSum_eq_sum_getD, List.map_map]
  rfl

/-- Witness for C4 at the concrete two-activity pool and one flight. -/
theorem c4_summary_type_columns_witness :
    (sampleRated.map (fun A => A.activity)).Nodup
    ∧ (((summaryRow sampleRated
          (allocRow sampleRated sampleFlight)).typeCells).map Prod.snd).sum
      = (summaryRow sampleRated
          (allocRow sampleRated sampleFlight)).total_Cost_Per_Flight := by
  refine ⟨by decide, ?_⟩
  exact (c4_summary_type_columns sampleRated sampleFlight (by decide)).1

/-- C5: with the event table's stripped numeric-column names pairwise
distinct, the driver-units dict maps each numeric column's stripped
(trimmed) name to its Totals-row value, omitting missing values; the
lookup returns 0 for a missing Driver cell and for any driver name whose
stripped form is not a key, and is a total function (never raises). -/
theorem c5_driver_units_lookup (du : List (String × ℚ))
    (numericCols : List String) (total : EventRow)
    (hnd : (numericCols.map strip).Nodup) :
    buildDriverUnits numericCols total
      = numericCols.filterMap
          (fun c => (cellOf total c).map (fun v => (strip c, v)))
    ∧ get_driver_units du none = 0
    ∧ (∀ d, du.lookup (strip d) = none →
        get_driver_units du (some d) = 0) := by
  refine ⟨buildDriverUnits_eq numericCols total hnd, rfl, ?_⟩
  intro d hd
  simp [get_driver_units, hd]

/-- Witness for C5 at the concrete Totals record: the dict is the
column-order list of (stripped name, value) pairs, and the lookup of the
unmapped name "Weight" is 0. -/
theorem c5_driver_units_lookup_witness :
    ((["Distance", "Bags"].map strip).Nodup)
    ∧ buildDriverUnits ["Distance", "Bags"] totalsRow
      = ["Distance", "Bags"].filterMap
          (fun c => (cellOf totalsRow c).map (fun v => (strip c, v)))
    ∧ sampleDU.lookup (strip "Weight") = none
    ∧ get_driver_units sampleDU (some "Weight") = 0 := by
  refine ⟨by decide,
    (c5_driver_units_lookup sampleDU ["Distance", "Bags"] totalsRow
      (by decide)).1,
    by decide, ?_⟩
  exact (c5_driver_units_lookup sampleDU ["Distance", "Bags"] totalsRow
    (by decide)).2.2 "Weight" (by decide)

/-- C6: a missing or unparseable departure timestamp classifies as
Unknown; otherwise the parsed hour h classifies as Morning on [5,12),
Afternoon on [12,17), Evening on [17,21), and Night on [0,5) and
[21,24), lower bounds inclusive, upper bounds exclusive. -/
theorem c6_time_period :
    get_time_period none = "Unknown"
    ∧ ∀ h : ℕ, h < 24 →
      ((5 ≤ h ∧ h < 12) → get_time_period (some h) = "Morning")
      ∧ ((12 ≤ h ∧ h < 17) → get_time_period (some h) = "Afternoon")
      ∧ ((17 ≤ h ∧ h < 21) → get_time_period (some h) = "Evening")
      ∧ ((h < 5 ∨ 21 ≤ h) → get_time_period (some h) = "Night") :=
  ⟨rfl, by decide⟩

/-- Witness for C6 at the boundary hours 5 and 21. -/
theorem c6_time_period_witness :
    (5 : ℕ) < 24 ∧ ((5 : ℕ) ≤ 5 ∧ (5 : ℕ) < 12)
    ∧ get_time_period (some 5) = "Morning"
    ∧ (21 : ℕ) < 24 ∧ ((21 : ℕ) < 5 ∨ (21 : ℕ) ≤ 21)
    ∧ get_time_period (some 21) = "Night" := by
  refine ⟨by decide, by decide, ?_, by decide, Or.inr (by decide), ?_⟩
  · exact (c6_time_period.2 5 (by decide)).1 ⟨by decide, by decide⟩
  · exact ((c6_time_period.2 21 (by decide)).2.2.2) (Or.inr (by decide))

/-- C7: a cost-pool table missing any of Activity, Type, Total_Cost,
Driver makes the pipeline stop with MissingColumnsError before any
allocation output is produced, while any column set containing the four
required names (extra columns included) passes validation and the
pipeline produces its outputs. -/
theorem c7_missing_columns (costCols : List String) (pool : List CostRow)
    (ev : EventTable) :
    ((∃ c ∈ required_cols, c ∉ costCols) →
      runPipeline costCols pool ev = .error "MissingColumnsError")
    ∧ ((∀ c ∈ required_cols, c ∈ costCols) → ev.rows ≠ [] →
      ∃ out, runPipeline costCols pool ev = .ok out) := by
  constructor
  · rintro ⟨c, hc, hnotin⟩
    have hcond : ¬ (required_cols.all (fun c => costCols.contains c) = true) := by
      rw [List.all_eq_true]
      intro hall
      have h2 := hall c hc
      exact hnotin (by simpa using h2)
    unfold runPipeline
    rw [if_pos hcond]
  · intro hall hne
    have hcond : required_cols.all (fun c => costCols.contains c) = true := by
      rw [List.all_eq_true]
      intro c hc
      simpa using hall c hc
    unfold runPipeline
    rw [if_neg (not_not_intro hcond)]
    rw [List.getLast?_eq_getLast ev.rows hne]
    exact ⟨_, rfl⟩

/-- Witness for C7: dropping "Driver" yields the error; the four required
columns plus an extra one yield outputs. -/
theorem c7_missing_columns_witness :
    (∃ c ∈ required_cols,
      c ∉ (["Activity", "Type", "Total_Cost"] : List String))
    ∧ runPipeline ["Activity", "Type", "Total_Cost"] [fuelRow]
        { numericCols := ["Distance", "Bags"],
          rows := [sampleFlight, totalsRow] }
      = .error "MissingColumnsError"
    ∧ (∀ c ∈ required_cols,
        c ∈ (["Activity", "Type", "Total_Cost", "Driver", "Extra"] : List String))
    ∧ ∃ out, runPipeline ["Activity", "Type", "Total_Cost", "Driver", "Extra"]
        [fuelRow]
        { numericCols := ["Distance", "Bags"],
          rows := [sampleFlight, totalsRow] }
      = .ok out := by
  refine ⟨⟨"Driver", by decide, by decide⟩, ?_, by decide, ?_⟩
  · exact (c7_missing_columns _ _ _).1 ⟨"Driver", by decide, by decide⟩
  · exact (c7_missing_columns _ _ _).2 (by decide) (List.cons_ne_nil _ _)

/-- C8: the pipeline is a pure function of its two input tables: equal
inputs give equal outputs, so re-running on identical inputs reproduces
identical RatedCostPool, AllocationMatrix, Summary and TimePeriod
outputs (idempotence of the batch computation). -/
theorem c8_deterministic (cols1 cols2 : List String)
    (pool1 pool2 : List CostRow) (ev1 ev2 : EventTable)
    (hc : cols1 = cols2) (hp : pool1 = pool2) (he : ev1 = ev2) :
    runPipeline cols1 pool1 ev1 = runPipeline cols2 pool2 ev2 := by
  rw [hc, hp, he]

/-- Witness for C8 at a concrete input pair. -/
theorem c8_deterministic_witness :
    (["Activity", "Type", "Total_Cost", "Driver"] : List String)
      = ["Activity", "Type", "Total_Cost", "Driver"]
    ∧ runPipeline ["Activity", "Type", "Total_Cost", "Driver"] [fuelRow]
        { numericCols := ["Distance", "Bags"],
          rows := [sampleFlight, totalsRow] }
      = runPipeline ["Activity", "Type", "Total_Cost", "Driver"] [fuelRow]
        { numericCols := ["Distance", "Bags"],
          rows := [sampleFlight, totalsRow] } :=
  ⟨rfl, c8_deterministic _ _ _ _ _ _ rfl rfl rfl⟩

/-- C9: whitespace in Driver names is handled asymmetrically: when a
Driver name matches an event column only after stripping (here the
lookup of the stripped name succeeds and the raw name is no column of
the flight row), the rated row gets the nonzero Driver_Units and rate,
while the allocation cell is 0 for every such flight row. -/
theorem c9_whitespace_asymmetry (du : List (String × ℚ)) (d : String)
    (u : ℚ) (r : CostRow) (F : EventRow)
    (hlk : du.lookup (strip d) = some u)
    (hdr : r.driver = some d)
    (hu : u ≠ 0)
    (hcol : F.cells.lookup d = none) :
    ∀ A ∈ rateCostPool du [r],
      A.driver_units = u
      ∧ A.ratePerDriverUnit = r.total_cost / u
      ∧ allocCell F A = some 0 := by
  intro A hA
  simp only [rateCostPool, List.map_cons, List.map_nil,
    List.mem_singleton] at hA
  subst hA
  have hgu : get_driver_units du r.driver = u := by
    rw [hdr]
    simp [get_driver_units, hlk]
  refine ⟨hgu, ?_, ?_⟩
  · dsimp only
    rw [hgu, if_pos hu]
  · dsimp only [allocCell]
    rw [hdr]
    simp [rowGetD, rowGet, hcol, nMul]

/-- Witness for C9: Driver " Distance" (leading space) against the
column "Distance": units 500 and rate 2 are found, yet the allocation
cell is 0. -/
theorem c9_whitespace_asymmetry_witness :
    sampleDU.lookup (strip " Distance") = some 500
    ∧ sampleFlight.cells.lookup " Distance" = none
    ∧ spacedRated ∈ rateCostPool sampleDU [spacedRow]
    ∧ spacedRated.driver_units = 500
    ∧ spacedRated.ratePerDriverUnit = spacedRow.total_cost / 500
    ∧ allocCell sampleFlight spacedRated = some 0 := by
  have hs : strip " Distance" = "Distance" := by decide
  have hmem : spacedRated ∈ rateCostPool sampleDU [spacedRow] := by
    have hu : get_driver_units sampleDU (some " Distance") = 500 := by
      simp [get_driver_units, hs, sampleDU, List.lookup]
    norm_num [rateCostPool, spacedRow, hu, spacedRated, RatedRow.mk.injEq]
  have h := c9_whitespace_asymmetry sampleDU " Distance" 500 spacedRow
    sampleFlight (by decide) rfl (by norm_num) (by decide) spacedRated hmem
  exact ⟨by decide, by decide, hmem, h.1, h.2.1, h.2.2⟩

/-- C10: when an activity's driver column exists in the flight row but
holds a missing (NaN) value, the allocation cell is NaN rather than 0
and no exception arises (`allocCell` is total); with the unique-Activity
invariant, Total_Cost_Per_Flight is the sum of exactly the non-missing
activity cells (the row sum skips NaN). -/
theorem c10_nan_driver_cell (rated : List RatedRow) (F : EventRow)
    (A : RatedRow) (d : String)
    (hdr : A.driver = some d)
    (hcell : F.cells.lookup d = some none)
    (hnd : (rated.map (fun B => B.activity)).Nodup) :
    allocCell F A = none
    ∧ total_Cost_Per_Flight (allocRow rated F)
      = ((rated.map (fun B => allocCell F B)).filterMap id).sum := by
  constructor
  · simp [allocCell, rowGetD, hdr, rowGet, hcell, nMul]
  · rw [total_allocRow rated F hnd]
    rfl

/-- Witness for C10: the flight whose Bags cell is NaN gives a NaN
Handling cell, and the total sums the non-missing cells. -/
theorem c10_nan_driver_cell_witness :
    handlingRated.driver = some "Bags"
    ∧ nanFlight.cells.lookup "Bags" = some none
    ∧ (sampleRated.map (fun B => B.activity)).Nodup
    ∧ allocCell nanFlight handlingRated = none
    ∧ total_Cost_Per_Flight (allocRow sampleRated nanFlight)
      = ((sampleRated.map
          (fun B => allocCell nanFlight B)).filterMap id).sum := by
  have h := c10_nan_driver_cell sampleRated nanFlight handlingRated "Bags"
    rfl (by decide) (by decide)
  exact ⟨rfl, by decide, by decide, h.1, h.2⟩

end ABC
